import Mathlib

/-!
Verification of the core of a help-queue coordination bot
(repository: yet-another-better-office-hour-bot).

The development shallowly embeds the three core components:
* the `HelpQueueV2` queue entity (src/help-queue/help-queue.ts),
* the `CentralCommandDispatcher.process` pipeline (dispatcher source file),
* the `combineMethodMaps` handler-map composer and the component
  processors `processButton` / `processSelectMenu` / `processModalSubmit`
  (interaction processor source file).

Mutable class state becomes a record; every mutating method becomes a pure
function from the record (plus an explicit `now` timestamp where the source
reads the clock) to `Except` of an error kind and the updated record.
discord.js `Collection` objects (insertion-ordered maps with unique keys)
are embedded as association lists with the `Map` operations `has`, `get`,
`set`, `delete` (`collHas`, `collGet`, `collSet`, `collDelete`).
External effects (rendering, notification sends, log sinks, extension
hooks) do not touch the queue state read back by any operation, so they
are omitted from the state; the dispatcher models the user-visible replies
it sends as an explicit trace of `Reply` values.
-/

/-- A guild member: the principal reference. Only `id` is ever consulted by
the core logic; `displayName` is carried for fidelity (it is used by the
source only to build display strings). -/
structure GuildMember where
  id : Nat
  displayName : String
deriving DecidableEq, Repr

/-- A requester (`Helpee` in models/member-states): waitStart timestamp,
the informational `upNext` flag, and the member object. -/
structure Helpee where
  waitStart : Nat
  upNext : Bool
  member : GuildMember
deriving DecidableEq, Repr

/-- A helper record: helpStart, optional helpEnd, the ordered list of served
members, and the member object. -/
structure Helper where
  helpStart : Nat
  helpEnd : Option Nat
  helpedMembers : List GuildMember
  member : GuildMember
deriving DecidableEq, Repr

/-- One entry of the persisted queue backup
(`QueueBackup.studentsInQueue` elements). -/
structure StudentBackup where
  waitStart : Nat
  upNext : Bool
  memberId : Nat
deriving DecidableEq, Repr

/-- The distinct `QueueError` messages thrown by HelpQueueV2, one
constructor per distinct message string in the source:
* `queueIsAlreadyOpen` — openQueue when the caller already helps here
* `queueIsAlreadyClosed` — closeQueue on a closed queue
* `notOneOfTheHelpers` — closeQueue by a non-helper
* `queueIsNotOpen` — enqueue on a closed queue
* `youAreAlreadyInTheQueue` — enqueue while already in the line
* `cannotEnqueueWhileHelping` — enqueue by a current helper
* `thisQueueIsNotOpen` — dequeueWithHelper on a closed queue
* `noOneInQueue` — dequeueWithHelper on an empty line
* `noPermissionToHelp` — dequeueWithHelper by a non-helper
* `notInTheQueue` — removeStudent on an absent target
* `alreadyInNotifGroup` / `notInNotifGroup` — notification subscribe and
  unsubscribe idempotency guards. -/
inductive QueueErrorKind where
  | queueIsAlreadyOpen
  | queueIsAlreadyClosed
  | notOneOfTheHelpers
  | queueIsNotOpen
  | youAreAlreadyInTheQueue
  | cannotEnqueueWhileHelping
  | thisQueueIsNotOpen
  | noOneInQueue
  | noPermissionToHelp
  | notInTheQueue
  | alreadyInNotifGroup
  | notInNotifGroup
deriving DecidableEq, Repr

/-- `Map.has` of a discord.js Collection embedded as an association list. -/
def collHas {κ α : Type} [BEq κ] (l : List (κ × α)) (k : κ) : Bool :=
  match l with
  | [] => false
  | p :: rest => p.1 == k || collHas rest k

/-- `Map.get` of a discord.js Collection embedded as an association list. -/
def collGet {κ α : Type} [BEq κ] (l : List (κ × α)) (k : κ) : Option α :=
  match l with
  | [] => none
  | p :: rest => if p.1 == k then some p.2 else collGet rest k

/-- `Map.set`: replaces the value at an existing key in place, otherwise
appends the new entry at the end (insertion order). -/
def collSet {κ α : Type} [BEq κ] (l : List (κ × α)) (k : κ) (v : α) : List (κ × α) :=
  match l with
  | [] => [(k, v)]
  | p :: rest => if p.1 == k then (k, v) :: rest else p :: collSet rest k v

/-- `Map.delete`: removes the entry of the key (keys are unique in a Map,
so removing the first occurrence is exact). -/
def collDelete {κ α : Type} [BEq κ] (l : List (κ × α)) (k : κ) : List (κ × α) :=
  match l with
  | [] => []
  | p :: rest => if p.1 == k then rest else p :: collDelete rest k

/-- `Array.prototype.findIndex`, with `none` standing for the source's -1. -/
def findIndexOpt {α : Type} (p : α → Bool) : List α → Option Nat
  | [] => none
  | a :: rest => if p a then some 0 else (findIndexOpt p rest).map (fun i => i + 1)

/-- The mutable state of one `HelpQueueV2` instance: the helper Collection
(keyed by member id), the FIFO `students` array, the notification group
Collection, and the `isOpen` flag. -/
structure HelpQueueV2 where
  helpers : List (Nat × Helper)
  students : List Helpee
  notifGroup : List (Nat × GuildMember)
  isOpen : Bool
deriving DecidableEq, Repr

/-- `channelObj.members.get(memberId)`: membership lookup by member id. -/
def resolveMember (members : List GuildMember) (memberId : Nat) : Option GuildMember :=
  members.find? (fun m => m.id == memberId)

/-- The backup-restore loop of the `HelpQueueV2` constructor: for each
backup entry, if a corresponding channel member exists, push the restored
`Helpee` onto the students array; otherwise skip the entry silently. -/
def restoreStudents (backup : List StudentBackup) (members : List GuildMember) : List Helpee :=
  match backup with
  | [] => []
  | sb :: rest =>
    match resolveMember members sb.memberId with
    | some correspondingMember =>
      { waitStart := sb.waitStart, upNext := sb.upNext,
        member := correspondingMember } :: restoreStudents rest members
    | none => restoreStudents rest members

/-- The `HelpQueueV2` constructor state: empty collections, closed queue,
and the students array optionally restored from backup data. -/
def createQueue (backupData : Option (List StudentBackup)) (members : List GuildMember) :
    HelpQueueV2 :=
  { helpers := []
    students :=
      match backupData with
      | some backup => restoreStudents backup members
      | none => []
    notifGroup := []
    isOpen := false }

/-- `HelpQueueV2.openQueue`: rejects when the caller already holds a Helper
record here; otherwise creates the Helper record with `helpStart = now`,
sets `isOpen` to true and stores the record under the member id. -/
def HelpQueueV2.openQueue (q : HelpQueueV2) (helperMember : GuildMember) (now : Nat) :
    Except QueueErrorKind HelpQueueV2 :=
  if collHas q.helpers helperMember.id then
    Except.error QueueErrorKind.queueIsAlreadyOpen
  else
    Except.ok { q with
      isOpen := true
      helpers := collSet q.helpers helperMember.id
        { helpStart := now, helpEnd := none, helpedMembers := [], member := helperMember } }

/-- `HelpQueueV2.closeQueue`: rejects when the queue is closed, then when
the caller holds no Helper record; otherwise deletes the record, recomputes
`isOpen = helpers.size > 0`, stamps `helpEnd = now` and returns the closed
record. -/
def HelpQueueV2.closeQueue (q : HelpQueueV2) (helperMember : GuildMember) (now : Nat) :
    Except QueueErrorKind (HelpQueueV2 × Helper) :=
  if !q.isOpen then
    Except.error QueueErrorKind.queueIsAlreadyClosed
  else
    match collGet q.helpers helperMember.id with
    | none => Except.error QueueErrorKind.notOneOfTheHelpers
    | some helper =>
      Except.ok
        ({ q with
            helpers := collDelete q.helpers helperMember.id
            isOpen := decide (0 < (collDelete q.helpers helperMember.id).length) },
          { helper with helpEnd := some now })

/-- `HelpQueueV2.enqueue`: rejects when the queue is closed, then when the
student is already in the line, then when the student holds a Helper record
on this queue; otherwise appends the new `Helpee` with `waitStart = now`
and `upNext` true exactly when the line was empty. -/
def HelpQueueV2.enqueue (q : HelpQueueV2) (studentMember : GuildMember) (now : Nat) :
    Except QueueErrorKind HelpQueueV2 :=
  if !q.isOpen then
    Except.error QueueErrorKind.queueIsNotOpen
  else if (q.students.find? (fun s => s.member.id == studentMember.id)).isSome then
    Except.error QueueErrorKind.youAreAlreadyInTheQueue
  else if collHas q.helpers studentMember.id then
    Except.error QueueErrorKind.cannotEnqueueWhileHelping
  else
    Except.ok { q with
      students := q.students ++
        [{ waitStart := now, upNext := q.students.length == 0, member := studentMember }] }

/-- `HelpQueueV2.dequeueWithHelper`: rejects when the queue is closed, then
when the line is empty, then when the caller holds no Helper record;
otherwise shifts the head of the line, pushes the served member onto the
caller's `helpedMembers` and returns the removed `Helpee`. -/
def HelpQueueV2.dequeueWithHelper (q : HelpQueueV2) (helperMember : GuildMember) :
    Except QueueErrorKind (HelpQueueV2 × Helpee) :=
  if !q.isOpen then
    Except.error QueueErrorKind.thisQueueIsNotOpen
  else
    match q.students, collGet q.helpers helperMember.id with
    | [], _ => Except.error QueueErrorKind.noOneInQueue
    | _ :: _, none => Except.error QueueErrorKind.noPermissionToHelp
    | firstStudent :: rest, some helper =>
      Except.ok
        ({ q with
            students := rest
            helpers := collSet q.helpers helperMember.id
              { helper with helpedMembers := helper.helpedMembers ++ [firstStudent.member] } },
          firstStudent)

/-- `HelpQueueV2.removeStudent`: finds the index of the first entry whose
member id matches the target; rejects when absent, otherwise splices out
exactly that entry (`splice(idx, 1)` is `take idx ++ drop (idx + 1)`). -/
def HelpQueueV2.removeStudent (q : HelpQueueV2) (targetStudent : GuildMember) :
    Except QueueErrorKind HelpQueueV2 :=
  match findIndexOpt (fun student => student.member.id == targetStudent.id) q.students with
  | none => Except.error QueueErrorKind.notInTheQueue
  | some idx =>
    Except.ok { q with students := q.students.take idx ++ q.students.drop (idx + 1) }

/-- `HelpQueueV2.removeAllStudents`: unconditionally empties the line. -/
def HelpQueueV2.removeAllStudents (q : HelpQueueV2) : HelpQueueV2 :=
  { q with students := [] }

/-- `HelpQueueV2.addToNotifGroup`: idempotency guard then `Map.set`. -/
def HelpQueueV2.addToNotifGroup (q : HelpQueueV2) (targetStudent : GuildMember) :
    Except QueueErrorKind HelpQueueV2 :=
  if collHas q.notifGroup targetStudent.id then
    Except.error QueueErrorKind.alreadyInNotifGroup
  else
    Except.ok { q with notifGroup := collSet q.notifGroup targetStudent.id targetStudent }

/-- `HelpQueueV2.removeFromNotifGroup`: idempotency guard then `Map.delete`. -/
def HelpQueueV2.removeFromNotifGroup (q : HelpQueueV2) (targetStudent : GuildMember) :
    Except QueueErrorKind HelpQueueV2 :=
  if !collHas q.notifGroup targetStudent.id then
    Except.error QueueErrorKind.notInNotifGroup
  else
    Except.ok { q with notifGroup := collDelete q.notifGroup targetStudent.id }

/-- One queue operation, for stating reachability over operation
sequences. -/
inductive QueueOp where
  | openSession (helper : GuildMember) (now : Nat)
  | closeSession (helper : GuildMember) (now : Nat)
  | enqueueStudent (student : GuildMember) (now : Nat)
  | dequeueNext (helper : GuildMember)
  | removeRequester (target : GuildMember)
  | clearAll
  | subscribe (target : GuildMember)
  | unsubscribe (target : GuildMember)
deriving DecidableEq, Repr

/-- Applies one operation to a queue state. A rejected operation leaves the
state unchanged, exactly as the source rejects before any mutation. -/
def stepOp (q : HelpQueueV2) (op : QueueOp) : HelpQueueV2 :=
  match op with
  | QueueOp.openSession h now =>
    match q.openQueue h now with
    | Except.ok q2 => q2
    | Except.error _ => q
  | QueueOp.closeSession h now =>
    match q.closeQueue h now with
    | Except.ok (q2, _) => q2
    | Except.error _ => q
  | QueueOp.enqueueStudent s now =>
    match q.enqueue s now with
    | Except.ok q2 => q2
    | Except.error _ => q
  | QueueOp.dequeueNext h =>
    match q.dequeueWithHelper h with
    | Except.ok (q2, _) => q2
    | Except.error _ => q
  | QueueOp.removeRequester t =>
    match q.removeStudent t with
    | Except.ok q2 => q2
    | Except.error _ => q
  | QueueOp.clearAll => q.removeAllStudents
  | QueueOp.subscribe t =>
    match q.addToNotifGroup t with
    | Except.ok q2 => q2
    | Except.error _ => q
  | QueueOp.unsubscribe t =>
    match q.removeFromNotifGroup t with
    | Except.ok q2 => q2
    | Except.error _ => q

/-- Runs a sequence of operations from a starting state. -/
def runOps (q : HelpQueueV2) (ops : List QueueOp) : HelpQueueV2 :=
  ops.foldl stepOp q

/-- True when some principal is simultaneously a Helper and a Requester on
the queue. -/
def helperRequesterOverlap (q : HelpQueueV2) : Bool :=
  q.helpers.any (fun p => q.students.any (fun s => s.member.id == p.1))

/-- Side condition on one operation: an open-session call must not come
from a principal currently in the waiting line (the source never checks
this; the condition delimits where the no-overlap invariant holds). -/
def opSafe (q : HelpQueueV2) (op : QueueOp) : Bool :=
  match op with
  | QueueOp.openSession h _ => q.students.all (fun s => !(s.member.id == h.id))
  | _ => true

/-- `opSafe` holding along a whole operation sequence. -/
def safeOps (q : HelpQueueV2) : List QueueOp → Bool
  | [] => true
  | op :: rest => opSafe q op && safeOps (stepOp q op) rest

/-!
Central command dispatcher (`CentralCommandDispatcher.process`).

A slash-command interaction carries an optional guild id
(`interaction.guild?.id`) and a command name. The server map is modeled by
its key set (the only thing `process` consults before dispatch is `has`;
`get(...)?.sendLogMessage` is a log-sink effect that never reaches the
requester). Each command handler is summarized by its observable outcome:
it resolves with a success string, resolves `undefined` after replying on
its own, or rejects with a `UserViewableError`.
-/

/-- The user-viewable error classes thrown across the dispatcher:
`CommandParseError` (also the unknown-origin rejection of
`isServerInteraction`), `CommandNotImplementedError`, and `QueueError`
propagated out of queue operations. -/
inductive UserViewableError where
  | commandParse
  | commandNotImplemented
  | queueErr (e : QueueErrorKind)
deriving DecidableEq, Repr

/-- Observable outcome of one command handler invocation. -/
inductive HandlerOutcome where
  | success (msg : String)
  | repliedAlready
  | failure (e : UserViewableError)
deriving DecidableEq, Repr

/-- A slash-command interaction as seen by `process`. -/
structure SlashInteraction where
  guildId : Option Nat
  commandName : String
deriving DecidableEq, Repr

/-- One user-visible reply sent to the requester (`interaction.reply` or
`interaction.editReply`). -/
inductive Reply where
  | processingPlaceholder
  | errorReply (e : UserViewableError)
  | successReply (msg : String)
deriving DecidableEq, Repr

/-- `CentralCommandDispatcher.isServerInteraction`: resolves the guild id
and rejects with a `CommandParseError` when the interaction has no guild or
the guild has no initialized server. -/
def isServerInteraction (serverMap : List Nat) (i : SlashInteraction) :
    Except UserViewableError Nat :=
  match i.guildId with
  | none => Except.error UserViewableError.commandParse
  | some gid =>
    if serverMap.contains gid then Except.ok gid
    else Except.error UserViewableError.commandParse

/-- `CentralCommandDispatcher.process`, as the pair of (trace of
user-visible replies sent, fault escaping `process` unhandled if any).

The source line is
`const serverId = (await this.isServerInteraction(interaction)) ?? 'unknown';`.
Because `isServerInteraction` rejects (rather than resolving `undefined`)
on an unknown origin, the `await` rethrows before the processing
placeholder is sent and before any catch handler is installed: the
`?? 'unknown'` sentinel is unreachable and the rejection escapes `process`
with no reply issued. On the known-origin path, an unmatched command name
is answered with a `CommandNotImplementedError` reply, and every handler
rejection is caught centrally and answered with exactly one error reply. -/
def process (serverMap : List Nat) (commandMethodMap : List (String × HandlerOutcome))
    (i : SlashInteraction) : List Reply × Option UserViewableError :=
  match isServerInteraction serverMap i with
  | Except.error e => ([], some e)
  | Except.ok _ =>
    match collGet commandMethodMap i.commandName with
    | none =>
      ([Reply.processingPlaceholder,
        Reply.errorReply UserViewableError.commandNotImplemented], none)
    | some (HandlerOutcome.success msg) =>
      ([Reply.processingPlaceholder, Reply.successReply msg], none)
    | some HandlerOutcome.repliedAlready =>
      ([Reply.processingPlaceholder], none)
    | some (HandlerOutcome.failure e) =>
      ([Reply.processingPlaceholder, Reply.errorReply e], none)

/-!
Handler-map composer (`combineMethodMaps`) and the generic component
processors. The four handler-table shapes are polymorphic in the handler
payload `α`: composition facts use opaque handler tokens (`Nat`), while the
processors run handlers summarized by their outcome.
-/

/-- `CommandHandlerProps`: the command method map plus the set of command
names whose handler manages its own acknowledgement. -/
structure CommandHandlerProps (α : Type) where
  methodMap : List (String × α)
  skipProgressMessageCommands : List String
deriving DecidableEq, Repr

/-- The per-guild method maps, split by component origin kind. -/
structure GuildMethodMap (α : Type) where
  queue : List (String × α)
  other : List (String × α)
deriving DecidableEq, Repr

/-- `ButtonHandlerProps`. -/
structure ButtonHandlerProps (α : Type) where
  guildMethodMap : GuildMethodMap α
  dmMethodMap : List (String × α)
  skipProgressMessageButtons : List String
deriving DecidableEq, Repr

/-- `SelectMenuHandlerProps`. -/
structure SelectMenuHandlerProps (α : Type) where
  guildMethodMap : GuildMethodMap α
  dmMethodMap : List (String × α)
  skipProgressMessageSelectMenus : List String
deriving DecidableEq, Repr

/-- `ModalSubmitHandlerProps` (no skip set in the source). -/
structure ModalSubmitHandlerProps (α : Type) where
  guildMethodMap : GuildMethodMap α
  dmMethodMap : List (String × α)
deriving DecidableEq, Repr

/-- `InteractionExtension`: the four handler tables one extension
contributes. -/
structure InteractionExtension (α : Type) where
  commandMap : CommandHandlerProps α
  buttonMap : ButtonHandlerProps α
  selectMenuMap : SelectMenuHandlerProps α
  modalMap : ModalSubmitHandlerProps α
deriving DecidableEq, Repr

/-- JavaScript object spread `\x7b...a, ...b\x7d` on string-keyed records:
keys of `a` keep their positions with values overridden by `b` where
present, then keys only in `b` follow in their own order. Later sources
win silently on key collision. -/
def spreadMerge {κ α : Type} [BEq κ] (a b : List (κ × α)) : List (κ × α) :=
  a.map (fun p =>
    match collGet b p.1 with
    | some v => (p.1, v)
    | none => p) ++
  b.filter (fun p => !collHas a p.1)

/-- `maps.reduce((prev, curr) => Object.assign(prev, curr))`: left fold of
the last-wins merge over a list of maps. The source only calls this on a
nonempty list (one map per attached extension); JavaScript would throw on
an empty list, which is unreachable behind the nonempty guard. -/
def reduceAssign {κ α : Type} [BEq κ] : List (List (κ × α)) → List (κ × α)
  | [] => []
  | m :: ms => ms.foldl spreadMerge m

/-- `new Set([...])` on a concatenation: deduplication keeping the first
occurrence of each element, in order. -/
def dedupFirst {κ : Type} [BEq κ] (l : List κ) : List κ :=
  l.foldl (fun acc a => if acc.contains a then acc else acc ++ [a]) []

/-- `combineMethodMaps`: with no attached extension, returns the four base
tables unchanged; otherwise spreads the base table under the
`Object.assign`-reduced extension tables (extension entries silently
override base entries on key collision) and unions the skip sets. The four
base tables are module-level imports in the source, passed here as
parameters. -/
def combineMethodMaps {α : Type}
    (baseYabobCommandMap : CommandHandlerProps α)
    (baseYabobButtonMethodMap : ButtonHandlerProps α)
    (baseYabobSelectMenuMap : SelectMenuHandlerProps α)
    (baseYabobModalMap : ModalSubmitHandlerProps α)
    (interactionExtensions : List (InteractionExtension α)) :
    CommandHandlerProps α × ButtonHandlerProps α ×
      SelectMenuHandlerProps α × ModalSubmitHandlerProps α :=
  if interactionExtensions.length == 0 then
    (baseYabobCommandMap, baseYabobButtonMethodMap,
      baseYabobSelectMenuMap, baseYabobModalMap)
  else
    ({ methodMap := spreadMerge baseYabobCommandMap.methodMap
        (reduceAssign (interactionExtensions.map (fun ext => ext.commandMap.methodMap)))
       skipProgressMessageCommands := dedupFirst
        (baseYabobCommandMap.skipProgressMessageCommands ++
          List.flatten (interactionExtensions.map
            (fun ext => ext.commandMap.skipProgressMessageCommands))) },
     { guildMethodMap :=
        { queue := spreadMerge baseYabobButtonMethodMap.guildMethodMap.queue
            (reduceAssign (interactionExtensions.map
              (fun ext => ext.buttonMap.guildMethodMap.queue)))
          other := spreadMerge baseYabobButtonMethodMap.guildMethodMap.other
            (reduceAssign (interactionExtensions.map
              (fun ext => ext.buttonMap.guildMethodMap.other))) }
       dmMethodMap := spreadMerge baseYabobButtonMethodMap.dmMethodMap
        (reduceAssign (interactionExtensions.map (fun ext => ext.buttonMap.dmMethodMap)))
       skipProgressMessageButtons := dedupFirst
        (baseYabobButtonMethodMap.skipProgressMessageButtons ++
          List.flatten (interactionExtensions.map
            (fun ext => ext.buttonMap.skipProgressMessageButtons))) },
     { guildMethodMap :=
        { queue := spreadMerge baseYabobSelectMenuMap.guildMethodMap.queue
            (reduceAssign (interactionExtensions.map
              (fun ext => ext.selectMenuMap.guildMethodMap.queue)))
          other := spreadMerge baseYabobSelectMenuMap.guildMethodMap.other
            (reduceAssign (interactionExtensions.map
              (fun ext => ext.selectMenuMap.guildMethodMap.other))) }
       dmMethodMap := spreadMerge baseYabobSelectMenuMap.dmMethodMap
        (reduceAssign (interactionExtensions.map
          (fun ext => ext.selectMenuMap.dmMethodMap)))
       skipProgressMessageSelectMenus := dedupFirst
        (baseYabobSelectMenuMap.skipProgressMessageSelectMenus ++
          List.flatten (interactionExtensions.map
            (fun ext => ext.selectMenuMap.skipProgressMessageSelectMenus))) },
     { guildMethodMap :=
        { queue := spreadMerge baseYabobModalMap.guildMethodMap.queue
            (reduceAssign (interactionExtensions.map
              (fun ext => ext.modalMap.guildMethodMap.queue)))
          other := spreadMerge baseYabobModalMap.guildMethodMap.other
            (reduceAssign (interactionExtensions.map
              (fun ext => ext.modalMap.guildMethodMap.other))) }
       dmMethodMap := spreadMerge baseYabobModalMap.dmMethodMap
        (reduceAssign (interactionExtensions.map
          (fun ext => ext.modalMap.dmMethodMap))) })

/-- The origin kind encoded in a component id by the id factory. -/
inductive ComponentIdType where
  | queue
  | other
  | dm
deriving DecidableEq, Repr

/-- The result of `safeDecompressComponentId` on the interaction's custom
id (the parser itself lives outside the given sources; only its ok/failed
outcome is consumed by the processors). -/
inductive ParseOutcome where
  | ok (t : ComponentIdType) (componentName : String) (serverId : Nat)
  | failed
deriving DecidableEq, Repr

/-- Observable outcome of one component handler invocation. -/
inductive ComponentOutcome where
  | ok
  | throws (e : UserViewableError)
deriving DecidableEq, Repr

/-- A button, select-menu, or modal-submit request as consumed by the
component processors. -/
structure ComponentRequest where
  parse : ParseOutcome
  inCachedGuild : Bool
  repliable : Bool
deriving DecidableEq, Repr

/-- `replyWithError`: does nothing when the interaction is not repliable,
otherwise issues one user-visible error reply (a fresh reply or an edit of
the earlier progress reply). -/
def replyWithError (repliable : Bool) (e : UserViewableError) : List Reply :=
  if repliable then [Reply.errorReply e] else []

/-- `guildMethodMap[type][name]`: lookup indexed by the parsed origin kind;
the map has no `dm` key, so a `dm` index yields `undefined`. -/
def guildMapLookup {α : Type} (gm : GuildMethodMap α) (t : ComponentIdType)
    (name : String) : Option α :=
  match t with
  | ComponentIdType.queue => collGet gm.queue name
  | ComponentIdType.other => collGet gm.other name
  | ComponentIdType.dm => none

/-- `handle...?.(interaction).catch(...)`: a missing handler does nothing
(optional call), a succeeding handler adds no reply here, and a rejecting
handler is answered through `replyWithError`. -/
def runComponentHandler (handler : Option ComponentOutcome) (repliable : Bool) : List Reply :=
  match handler with
  | none => []
  | some ComponentOutcome.ok => []
  | some (ComponentOutcome.throws e) => replyWithError repliable e

/-- `processButton`: returns silently when the component id fails to parse;
otherwise sends the progress reply unless the button is in the skip set,
then dispatches to the guild or dm method map and catches handler faults. -/
def processButton (bm : ButtonHandlerProps ComponentOutcome) (req : ComponentRequest) :
    List Reply :=
  match req.parse with
  | ParseOutcome.failed => []
  | ParseOutcome.ok t buttonName _ =>
    let progress : List Reply :=
      if bm.skipProgressMessageButtons.contains buttonName then []
      else [Reply.processingPlaceholder]
    if req.inCachedGuild && !(t == ComponentIdType.dm) then
      progress ++ runComponentHandler (guildMapLookup bm.guildMethodMap t buttonName)
        req.repliable
    else
      progress ++ runComponentHandler (collGet bm.dmMethodMap buttonName) req.repliable

/-- `processSelectMenu`: same shape as `processButton` with the select-menu
tables. -/
def processSelectMenu (sm : SelectMenuHandlerProps ComponentOutcome)
    (req : ComponentRequest) : List Reply :=
  match req.parse with
  | ParseOutcome.failed => []
  | ParseOutcome.ok t selectMenuName _ =>
    let progress : List Reply :=
      if sm.skipProgressMessageSelectMenus.contains selectMenuName then []
      else [Reply.processingPlaceholder]
    if req.inCachedGuild && !(t == ComponentIdType.dm) then
      progress ++ runComponentHandler (guildMapLookup sm.guildMethodMap t selectMenuName)
        req.repliable
    else
      progress ++ runComponentHandler (collGet sm.dmMethodMap selectMenuName) req.repliable

/-- `processModalSubmit`: returns silently when the component id fails to
parse; sends no progress reply; dispatches and catches handler faults. -/
def processModalSubmit (mm : ModalSubmitHandlerProps ComponentOutcome)
    (req : ComponentRequest) : List Reply :=
  match req.parse with
  | ParseOutcome.failed => []
  | ParseOutcome.ok t modalName _ =>
    if req.inCachedGuild && !(t == ComponentIdType.dm) then
      runComponentHandler (guildMapLookup mm.guildMethodMap t modalName) req.repliable
    else
      runComponentHandler (collGet mm.dmMethodMap modalName) req.repliable

/-!
Demonstration values used by concrete theorems and witnesses.
-/

/-- A demo member. -/
def aliceM : GuildMember := { id := 1, displayName := "alice" }

/-- A demo member. -/
def bobM : GuildMember := { id := 2, displayName := "bob" }

/-- A demo member. -/
def caraM : GuildMember := { id := 3, displayName := "cara" }

/-- The observation-point invariant of claim C4: the open flag agrees with
helper presence. -/
def openMatchesHelpers (q : HelpQueueV2) : Prop :=
  q.isOpen = decide (0 < q.helpers.length)

/-- Projection of a restored waiting-line entry back to backup shape. -/
def toBackupEntry (hp : Helpee) : StudentBackup :=
  { waitStart := hp.waitStart, upNext := hp.upNext, memberId := hp.member.id }

/-- A fresh queue with no backup. -/
def demoClosedQ : HelpQueueV2 := createQueue none []

/-- The fresh queue opened by alice at time 0. -/
def demoOpenQ : HelpQueueV2 := stepOp demoClosedQ (QueueOp.openSession aliceM 0)

/-- The open queue with bob enqueued at time 5. -/
def demoOpenQB : HelpQueueV2 := stepOp demoOpenQ (QueueOp.enqueueStudent bobM 5)

/-- A server map knowing only guild 1. -/
def demoServerMap : List Nat := [1]

/-- A demo command method map: one succeeding and one rejecting handler. -/
def demoCommandMethodMap : List (String × HandlerOutcome) :=
  [("enqueue", HandlerOutcome.success "Successfully joined"),
   ("next", HandlerOutcome.failure (UserViewableError.queueErr QueueErrorKind.noOneInQueue))]

/-- A demo base command table with opaque handler tokens. -/
def demoBaseCommandMap : CommandHandlerProps Nat :=
  { methodMap := [("enqueue", 1), ("leave", 2)], skipProgressMessageCommands := [] }

/-- An empty guild method map. -/
def demoEmptyGuildMap : GuildMethodMap Nat := { queue := [], other := [] }

/-- A demo base button table. -/
def demoBaseButtonMap : ButtonHandlerProps Nat :=
  { guildMethodMap := demoEmptyGuildMap, dmMethodMap := [], skipProgressMessageButtons := [] }

/-- A demo base select-menu table. -/
def demoBaseSelectMap : SelectMenuHandlerProps Nat :=
  { guildMethodMap := demoEmptyGuildMap, dmMethodMap := [], skipProgressMessageSelectMenus := [] }

/-- A demo base modal table. -/
def demoBaseModalMap : ModalSubmitHandlerProps Nat :=
  { guildMethodMap := demoEmptyGuildMap, dmMethodMap := [] }

/-- An extension contributing a command entry whose key collides with the
base table key. -/
def demoCollidingExtension : InteractionExtension Nat :=
  { commandMap := { methodMap := [("enqueue", 99)], skipProgressMessageCommands := [] }
    buttonMap := demoBaseButtonMap
    selectMenuMap := demoBaseSelectMap
    modalMap := demoBaseModalMap }

/-- A demo button table with a rejecting guild handler and a rejecting
dm handler. -/
def demoButtonOutcomeMap : ButtonHandlerProps ComponentOutcome :=
  { guildMethodMap :=
      { queue := [("join",
          ComponentOutcome.throws (UserViewableError.queueErr QueueErrorKind.queueIsNotOpen))]
        other := [] }
    dmMethodMap := [("dmjoin",
      ComponentOutcome.throws (UserViewableError.queueErr QueueErrorKind.notInNotifGroup))]
    skipProgressMessageButtons := [] }

/-- A demo select-menu table. -/
def demoSelectOutcomeMap : SelectMenuHandlerProps ComponentOutcome :=
  { guildMethodMap := { queue := [], other := [] }
    dmMethodMap := []
    skipProgressMessageSelectMenus := [] }

/-- A demo modal table. -/
def demoModalOutcomeMap : ModalSubmitHandlerProps ComponentOutcome :=
  { guildMethodMap := { queue := [], other := [] }, dmMethodMap := [] }

/-!
Association-list (Collection) lemmas.
-/

/-- `Map.set` never produces an empty map. -/
theorem collSet_length_pos {κ α : Type} [BEq κ] (l : List (κ × α)) (k : κ) (v : α) :
    0 < (collSet l k v).length := by
  cases l with
  | nil => simp [collSet]
  | cons p rest =>
    unfold collSet
    by_cases hp : (p.1 == k) = true <;> simp [hp]

/-- Setting an absent key appends the new entry. -/
theorem collSet_of_not_has {κ α : Type} [BEq κ] (l : List (κ × α)) (k : κ) (v : α)
    (h : collHas l k = false) : collSet l k v = l ++ [(k, v)] := by
  induction l with
  | nil => simp [collSet]
  | cons p rest ih =>
    unfold collHas at h
    unfold collSet
    by_cases hp : (p.1 == k) = true
    · simp [hp] at h
    · simp [hp] at h ⊢
      exact ih h

/-- A successful `Map.get` exhibits a member of the list. -/
theorem collGet_mem {κ α : Type} [BEq κ] [LawfulBEq κ] {l : List (κ × α)} {k : κ} {v : α}
    (h : collGet l k = some v) : (k, v) ∈ l := by
  induction l with
  | nil => simp [collGet] at h
  | cons p rest ih =>
    unfold collGet at h
    by_cases hp : (p.1 == k) = true
    · have hk : p.1 = k := eq_of_beq hp
      have hv : p.2 = v := by simpa [hp] using h
      have hpe : p = (k, v) := by
        obtain ⟨pk, pv⟩ := p
        simp_all
      rw [← hpe]
      exact List.mem_cons_self p rest
    · simp [hp] at h
      right
      exact ih h

/-- Deleting a present key removes exactly one entry. -/
theorem collDelete_length {κ α : Type} [BEq κ] {l : List (κ × α)} {k : κ} {v : α}
    (h : collGet l k = some v) : l.length = (collDelete l k).length + 1 := by
  induction l with
  | nil => simp [collGet] at h
  | cons p rest ih =>
    unfold collGet at h
    unfold collDelete
    by_cases hp : (p.1 == k) = true
    · simp [hp]
    · simp [hp] at h ⊢
      exact ih h

/-- Every element surviving `Map.delete` was in the original map. -/
theorem mem_collDelete {κ α : Type} [BEq κ] {l : List (κ × α)} {k : κ} {x : κ × α}
    (h : x ∈ collDelete l k) : x ∈ l := by
  induction l with
  | nil => simp [collDelete] at h
  | cons p rest ih =>
    unfold collDelete at h
    by_cases hp : (p.1 == k) = true
    · simp [hp] at h
      simp [h]
    · simp [hp] at h
      rcases h with h | h
      · simp [h]
      · simp [ih h]

/-- Every element of `Map.set` is an original element or the new entry. -/
theorem mem_collSet {κ α : Type} [BEq κ] {l : List (κ × α)} {k : κ} {v : α} {x : κ × α}
    (h : x ∈ collSet l k v) : x ∈ l ∨ x = (k, v) := by
  induction l with
  | nil => simp [collSet] at h; simp [h]
  | cons p rest ih =>
    unfold collSet at h
    by_cases hp : (p.1 == k) = true
    · simp [hp] at h
      rcases h with h | h
      · simp [h]
      · simp [h]
    · simp [hp] at h
      rcases h with h | h
      · simp [h]
      · rcases ih h with h2 | h2
        · simp [h2]
        · simp [h2]

/-- A present key makes `Map.get` succeed. -/
theorem collGet_isSome_of_has {κ α : Type} [BEq κ] {l : List (κ × α)} {k : κ}
    (h : collHas l k = true) : (collGet l k).isSome = true := by
  induction l with
  | nil => simp [collHas] at h
  | cons p rest ih =>
    unfold collHas at h
    unfold collGet
    by_cases hp : (p.1 == k) = true
    · simp [hp]
    · simp [hp] at h ⊢
      exact ih h

/-!
Inversion lemmas: a successful operation pins down the guards that held
and the exact shape of the updated state.
-/

/-- Inversion of a successful `openQueue`. -/
theorem openQueue_ok_inv {q : HelpQueueV2} {hm : GuildMember} {now : Nat} {q2 : HelpQueueV2}
    (h : q.openQueue hm now = Except.ok q2) :
    collHas q.helpers hm.id = false ∧
    q2 = { q with
      isOpen := true
      helpers := collSet q.helpers hm.id
        { helpStart := now, helpEnd := none, helpedMembers := [], member := hm } } := by
  unfold HelpQueueV2.openQueue at h
  by_cases hc : collHas q.helpers hm.id = true
  · simp [hc] at h
  · simp only [Bool.not_eq_true] at hc
    simp [hc] at h
    exact ⟨hc, h.symm⟩

/-- Inversion of a successful `closeQueue`. -/
theorem closeQueue_ok_inv {q : HelpQueueV2} {hm : GuildMember} {now : Nat}
    {q2 : HelpQueueV2} {rec : Helper}
    (h : q.closeQueue hm now = Except.ok (q2, rec)) :
    q.isOpen = true ∧ ∃ helper, collGet q.helpers hm.id = some helper ∧
      q2 = { q with
        helpers := collDelete q.helpers hm.id
        isOpen := decide (0 < (collDelete q.helpers hm.id).length) } ∧
      rec = { helper with helpEnd := some now } := by
  unfold HelpQueueV2.closeQueue at h
  cases hio : q.isOpen with
  | false => simp [hio] at h
  | true =>
    simp only [hio, Bool.not_true, Bool.false_eq_true, if_false] at h
    cases hg : collGet q.helpers hm.id with
    | none => simp [hg] at h
    | some helper =>
      simp [hg] at h
      exact ⟨rfl, helper, rfl, h.1.symm, h.2.symm⟩

/-- Inversion of a successful `enqueue`. -/
theorem enqueue_ok_inv {q : HelpQueueV2} {s : GuildMember} {now : Nat} {q2 : HelpQueueV2}
    (h : q.enqueue s now = Except.ok q2) :
    q.isOpen = true ∧
    (q.students.find? (fun st => st.member.id == s.id)).isSome = false ∧
    collHas q.helpers s.id = false ∧
    q2 = { q with
      students := q.students ++
        [{ waitStart := now, upNext := q.students.length == 0, member := s }] } := by
  unfold HelpQueueV2.enqueue at h
  cases hio : q.isOpen with
  | false => simp [hio] at h
  | true =>
    simp only [hio, Bool.not_true, Bool.false_eq_true, if_false] at h
    by_cases hf : (q.students.find? (fun st => st.member.id == s.id)).isSome = true
    · simp [hf] at h
    · simp only [Bool.not_eq_true] at hf
      simp only [hf, Bool.false_eq_true, if_false] at h
      by_cases hh : collHas q.helpers s.id = true
      · simp [hh] at h
      · simp only [Bool.not_eq_true] at hh
        simp [hh] at h
        exact ⟨rfl, hf, hh, h.symm⟩

/-- Inversion of a successful `dequeueWithHelper`. -/
theorem dequeue_ok_inv {q : HelpQueueV2} {hm : GuildMember} {q2 : HelpQueueV2} {st : Helpee}
    (h : q.dequeueWithHelper hm = Except.ok (q2, st)) :
    q.isOpen = true ∧ ∃ rest helper, q.students = st :: rest ∧
      collGet q.helpers hm.id = some helper ∧
      q2 = { q with
        students := rest
        helpers := collSet q.helpers hm.id
          { helper with helpedMembers := helper.helpedMembers ++ [st.member] } } := by
  unfold HelpQueueV2.dequeueWithHelper at h
  cases hio : q.isOpen with
  | false => simp [hio] at h
  | true =>
    simp only [hio, Bool.not_true, Bool.false_eq_true, if_false] at h
    cases hs : q.students with
    | nil => simp [hs] at h
    | cons f rest =>
      cases hg : collGet q.helpers hm.id with
      | none => simp [hs, hg] at h
      | some helper =>
        simp [hs, hg] at h
        obtain ⟨h1, h2⟩ := h
        subst h2
        exact ⟨rfl, rest, helper, rfl, rfl, h1.symm⟩


/-- Inversion of a successful `removeStudent`. -/
theorem removeStudent_ok_inv {q : HelpQueueV2} {t : GuildMember} {q2 : HelpQueueV2}
    (h : q.removeStudent t = Except.ok q2) :
    ∃ idx, findIndexOpt (fun st => st.member.id == t.id) q.students = some idx ∧
      q2 = { q with students := q.students.take idx ++ q.students.drop (idx + 1) } := by
  unfold HelpQueueV2.removeStudent at h
  cases hfi : findIndexOpt (fun st => st.member.id == t.id) q.students with
  | none => simp [hfi] at h
  | some idx =>
    simp [hfi] at h
    exact ⟨idx, rfl, h.symm⟩

/-- Inversion of a successful `addToNotifGroup`. -/
theorem addToNotifGroup_ok_inv {q : HelpQueueV2} {t : GuildMember} {q2 : HelpQueueV2}
    (h : q.addToNotifGroup t = Except.ok q2) :
    q2 = { q with notifGroup := collSet q.notifGroup t.id t } := by
  unfold HelpQueueV2.addToNotifGroup at h
  by_cases hc : collHas q.notifGroup t.id = true
  · simp [hc] at h
  · simp [hc] at h
    exact h.symm

/-- Inversion of a successful `removeFromNotifGroup`. -/
theorem removeFromNotifGroup_ok_inv {q : HelpQueueV2} {t : GuildMember} {q2 : HelpQueueV2}
    (h : q.removeFromNotifGroup t = Except.ok q2) :
    q2 = { q with notifGroup := collDelete q.notifGroup t.id } := by
  unfold HelpQueueV2.removeFromNotifGroup at h
  by_cases hc : collHas q.notifGroup t.id = true
  · simp [hc] at h
    exact h.symm
  · simp [hc] at h

/-!
The open-flag invariant (claim C4 machinery).
-/

/-- Every queue operation preserves the open-flag invariant. -/
theorem openMatchesHelpers_stepOp (q : HelpQueueV2) (op : QueueOp)
    (h : openMatchesHelpers q) : openMatchesHelpers (stepOp q op) := by
  cases op with
  | openSession h0 now =>
    cases hr : q.openQueue h0 now with
    | error e => simpa [stepOp, hr] using h
    | ok q2 =>
      obtain ⟨-, hq2⟩ := openQueue_ok_inv hr
      subst hq2
      simp [stepOp, hr, openMatchesHelpers, collSet_length_pos]
  | closeSession h0 now =>
    cases hr : q.closeQueue h0 now with
    | error e => simpa [stepOp, hr] using h
    | ok pr =>
      obtain ⟨q2, rec⟩ := pr
      obtain ⟨-, helper, -, hq2, -⟩ := closeQueue_ok_inv hr
      subst hq2
      simp [stepOp, hr, openMatchesHelpers]
  | enqueueStudent s now =>
    cases hr : q.enqueue s now with
    | error e => simpa [stepOp, hr] using h
    | ok q2 =>
      obtain ⟨-, -, -, hq2⟩ := enqueue_ok_inv hr
      subst hq2
      simpa [stepOp, hr, openMatchesHelpers] using h
  | dequeueNext h0 =>
    cases hr : q.dequeueWithHelper h0 with
    | error e => simpa [stepOp, hr] using h
    | ok pr =>
      obtain ⟨q2, st⟩ := pr
      obtain ⟨hio, rest, helper, -, -, hq2⟩ := dequeue_ok_inv hr
      subst hq2
      simp [stepOp, hr, openMatchesHelpers, hio, collSet_length_pos]
  | removeRequester t =>
    cases hr : q.removeStudent t with
    | error e => simpa [stepOp, hr] using h
    | ok q2 =>
      obtain ⟨idx, -, hq2⟩ := removeStudent_ok_inv hr
      subst hq2
      simpa [stepOp, hr, openMatchesHelpers] using h
  | clearAll =>
    simpa [stepOp, HelpQueueV2.removeAllStudents, openMatchesHelpers] using h
  | subscribe t =>
    cases hr : q.addToNotifGroup t with
    | error e => simpa [stepOp, hr] using h
    | ok q2 =>
      have hq2 := addToNotifGroup_ok_inv hr
      subst hq2
      simpa [stepOp, hr, openMatchesHelpers] using h
  | unsubscribe t =>
    cases hr : q.removeFromNotifGroup t with
    | error e => simpa [stepOp, hr] using h
    | ok q2 =>
      have hq2 := removeFromNotifGroup_ok_inv hr
      subst hq2
      simpa [stepOp, hr, openMatchesHelpers] using h

/-- The open-flag invariant is preserved by whole operation sequences. -/
theorem openMatchesHelpers_runOps (q : HelpQueueV2) (ops : List QueueOp)
    (h : openMatchesHelpers q) : openMatchesHelpers (runOps q ops) := by
  induction ops generalizing q with
  | nil => exact h
  | cons op rest ih => exact ih (stepOp q op) (openMatchesHelpers_stepOp q op h)

/-- A freshly constructed queue satisfies the open-flag invariant. -/
theorem openMatchesHelpers_createQueue (backupData : Option (List StudentBackup))
    (members : List GuildMember) : openMatchesHelpers (createQueue backupData members) := by
  simp [openMatchesHelpers, createQueue]

/-!
The helper/requester no-overlap invariant (claim C3 machinery).
-/

/-- Membership in an association list implies the key is present. -/
theorem collHas_of_mem {κ α : Type} [BEq κ] [LawfulBEq κ] {l : List (κ × α)} {p : κ × α}
    (h : p ∈ l) : collHas l p.1 = true := by
  induction l with
  | nil => simp at h
  | cons a rest ih =>
    unfold collHas
    rcases List.mem_cons.mp h with h2 | h2
    · subst h2
      simp
    · simp [ih h2]

/-- Prop reading of `helperRequesterOverlap = false`: no helper key is the
member id of any waiting student. -/
theorem overlap_false_iff (q : HelpQueueV2) :
    helperRequesterOverlap q = false ↔
      ∀ p ∈ q.helpers, ∀ s ∈ q.students, ¬ s.member.id = p.1 := by
  simp [helperRequesterOverlap]

/-- Every queue operation whose side condition holds preserves the
no-overlap invariant; in particular every operation other than an
open-session call by an already-waiting principal does. -/
theorem noOverlap_stepOp (q : HelpQueueV2) (op : QueueOp)
    (h : helperRequesterOverlap q = false) (hsafe : opSafe q op = true) :
    helperRequesterOverlap (stepOp q op) = false := by
  rw [overlap_false_iff] at h ⊢
  cases op with
  | openSession h0 now =>
    cases hr : q.openQueue h0 now with
    | error e => simpa [stepOp, hr] using h
    | ok q2 =>
      obtain ⟨-, hq2⟩ := openQueue_ok_inv hr
      subst hq2
      simp only [stepOp, hr]
      intro p hp s hs2 hid
      rcases mem_collSet hp with hin | heq
      · exact h p hin s hs2 hid
      · subst heq
        simp only [opSafe, List.all_eq_true] at hsafe
        have := hsafe s hs2
        simp at this
        exact this (by simpa using hid)
  | closeSession h0 now =>
    cases hr : q.closeQueue h0 now with
    | error e => simpa [stepOp, hr] using h
    | ok pr =>
      obtain ⟨q2, rec⟩ := pr
      obtain ⟨-, helper, -, hq2, -⟩ := closeQueue_ok_inv hr
      subst hq2
      simp only [stepOp, hr]
      intro p hp s hs2 hid
      exact h p (mem_collDelete hp) s hs2 hid
  | enqueueStudent s0 now =>
    cases hr : q.enqueue s0 now with
    | error e => simpa [stepOp, hr] using h
    | ok q2 =>
      obtain ⟨-, -, hno, hq2⟩ := enqueue_ok_inv hr
      subst hq2
      simp only [stepOp, hr]
      intro p hp s hs2 hid
      rcases List.mem_append.mp hs2 with hin | hnew
      · exact h p hp s hin hid
      · simp at hnew
        subst hnew
        simp at hid
        rw [hid] at hno
        rw [collHas_of_mem hp] at hno
        exact Bool.true_eq_false.mp hno
  | dequeueNext h0 =>
    cases hr : q.dequeueWithHelper h0 with
    | error e => simpa [stepOp, hr] using h
    | ok pr =>
      obtain ⟨q2, st⟩ := pr
      obtain ⟨-, rest, helper, hstu, hget, hq2⟩ := dequeue_ok_inv hr
      subst hq2
      simp only [stepOp, hr]
      intro p hp s hs2 hid
      have hsmem : s ∈ q.students := by
        rw [hstu]
        exact List.mem_cons_of_mem st hs2
      rcases mem_collSet hp with hin | heq
      · exact h p hin s hsmem hid
      · subst heq
        exact h (h0.id, helper) (collGet_mem hget) s hsmem (by simpa using hid)
  | removeRequester t =>
    cases hr : q.removeStudent t with
    | error e => simpa [stepOp, hr] using h
    | ok q2 =>
      obtain ⟨idx, -, hq2⟩ := removeStudent_ok_inv hr
      subst hq2
      simp only [stepOp, hr]
      intro p hp s hs2 hid
      rcases List.mem_append.mp hs2 with hin | hin
      · exact h p hp s (List.take_subset idx q.students hin) hid
      · exact h p hp s (List.drop_subset (idx + 1) q.students hin) hid
  | clearAll =>
    simp [stepOp, HelpQueueV2.removeAllStudents]
  | subscribe t =>
    cases hr : q.addToNotifGroup t with
    | error e => simpa [stepOp, hr] using h
    | ok q2 =>
      have hq2 := addToNotifGroup_ok_inv hr
      subst hq2
      simp only [stepOp, hr]
      intro p hp s hs2 hid
      exact h p hp s hs2 hid
  | unsubscribe t =>
    cases hr : q.removeFromNotifGroup t with
    | error e => simpa [stepOp, hr] using h
    | ok q2 =>
      have hq2 := removeFromNotifGroup_ok_inv hr
      subst hq2
      simp only [stepOp, hr]
      intro p hp s hs2 hid
      exact h p hp s hs2 hid

/-- The no-overlap invariant is preserved by whole operation sequences that
satisfy the open-session side condition at every step. -/
theorem noOverlap_runOps (q : HelpQueueV2) (ops : List QueueOp)
    (h : helperRequesterOverlap q = false) (hsafe : safeOps q ops = true) :
    helperRequesterOverlap (runOps q ops) = false := by
  induction ops generalizing q with
  | nil => exact h
  | cons op rest ih =>
    simp only [safeOps, Bool.and_eq_true] at hsafe
    exact ih (stepOp q op) (noOverlap_stepOp q op h hsafe.1) hsafe.2

/-!
findIndex and backup-restore lemmas (claims C10 and C8 machinery).
-/

/-- A successful `findIndex` points at the first match: everything before
the index fails the predicate and the indexed element satisfies it. -/
theorem findIndexOpt_some_spec {α : Type} (p : α → Bool) (l : List α) (idx : Nat)
    (h : findIndexOpt p l = some idx) :
    (l.take idx).all (fun a => !p a) = true ∧ ∃ a, l[idx]? = some a ∧ p a = true := by
  induction l generalizing idx with
  | nil => simp [findIndexOpt] at h
  | cons a rest ih =>
    unfold findIndexOpt at h
    by_cases hp : p a = true
    · simp [hp] at h
      subst h
      simp [hp]
    · simp [hp] at h
      obtain ⟨j, hj, hidx⟩ := h
      subst hidx
      obtain ⟨h1, a2, h2, h3⟩ := ih j hj
      simp only [List.take_succ_cons, List.all_cons, h1, Bool.not_eq_true', hp]
      simp only [List.getElem?_cons_succ]
      exact ⟨rfl, a2, h2, h3⟩

/-- A member resolved from the membership map carries the looked-up id. -/
theorem resolveMember_id {members : List GuildMember} {memberId : Nat} {m : GuildMember}
    (h : resolveMember members memberId = some m) : m.id = memberId := by
  have := List.find?_some h
  simpa using this

/-- The restored waiting line is an order-preserving subsequence of the
backup list. -/
theorem restoreStudents_sublist (backup : List StudentBackup) (members : List GuildMember) :
    List.Sublist ((restoreStudents backup members).map toBackupEntry) backup := by
  induction backup with
  | nil => simp [restoreStudents]
  | cons sb rest ih =>
    unfold restoreStudents
    cases hres : resolveMember members sb.memberId with
    | none => exact List.Sublist.cons sb ih
    | some m =>
      have hid : m.id = sb.memberId := resolveMember_id hres
      simp only [List.map_cons, toBackupEntry, hid]
      exact List.Sublist.cons₂ sb ih

/-- The restored waiting line contains exactly the resolvable backup
entries, each paired with its resolved member. -/
theorem restoreStudents_mem_iff (backup : List StudentBackup) (members : List GuildMember)
    (hp : Helpee) :
    hp ∈ restoreStudents backup members ↔
      ∃ sb ∈ backup, resolveMember members sb.memberId = some hp.member ∧
        hp.waitStart = sb.waitStart ∧ hp.upNext = sb.upNext := by
  induction backup with
  | nil => simp [restoreStudents]
  | cons sb rest ih =>
    unfold restoreStudents
    cases hres : resolveMember members sb.memberId with
    | none =>
      rw [ih]
      constructor
      · intro ⟨sb2, hmem, hres2, hw, hu⟩
        exact ⟨sb2, List.mem_cons_of_mem sb hmem, hres2, hw, hu⟩
      · intro ⟨sb2, hmem, hres2, hw, hu⟩
        rcases List.mem_cons.mp hmem with heq | hmem2
        · subst heq
          rw [hres] at hres2
          exact absurd hres2 (by simp)
        · exact ⟨sb2, hmem2, hres2, hw, hu⟩
    | some m =>
      constructor
      · intro hmem
        rcases List.mem_cons.mp hmem with heq | hmem2
        · subst heq
          exact ⟨sb, List.mem_cons_self sb rest, by simpa using hres, rfl, rfl⟩
        · obtain ⟨sb2, hmem3, hres2, hw, hu⟩ := ih.mp hmem2
          exact ⟨sb2, List.mem_cons_of_mem sb hmem3, hres2, hw, hu⟩
      · intro ⟨sb2, hmem, hres2, hw, hu⟩
        rcases List.mem_cons.mp hmem with heq | hmem2
        · subst heq
          rw [hres] at hres2
          have hm : m = hp.member := by simpa using hres2
          have hpe : hp = { waitStart := sb2.waitStart, upNext := sb2.upNext, member := m } := by
            obtain ⟨w, u, mem⟩ := hp
            simp_all
          rw [hpe]
          exact List.mem_cons_self _ _
        · exact List.mem_cons_of_mem _ (ih.mpr ⟨sb2, hmem2, hres2, hw, hu⟩)

/-!
Claim theorems.
-/

/-- C1: the claim states that a command request from an origin not
resolving to a known organizational unit makes `process` fail with the
unknown-origin error while still issuing exactly one user-visible error
reply and letting no fault escape. The code disagrees: `await` of the
rejected `isServerInteraction` promise rethrows before any reply is sent
and outside every catch handler (the `?? 'unknown'` sentinel on that line
is unreachable), so `process` issues zero replies and the rejection
escapes to the caller. This theorem evaluates `process` at two failing
inputs (guild 999 unknown to the server map, and a guild-less request):
both produce an empty reply trace and an escaping fault; the third
conjunct shows the contrast on a known origin, where a handler fault is
caught and answered with an error reply and nothing escapes. -/
theorem c1_unknown_origin_escapes_without_reply :
    process demoServerMap demoCommandMethodMap
        { guildId := some 999, commandName := "enqueue" } =
      ([], some UserViewableError.commandParse) ∧
    process demoServerMap demoCommandMethodMap
        { guildId := none, commandName := "enqueue" } =
      ([], some UserViewableError.commandParse) ∧
    process demoServerMap demoCommandMethodMap
        { guildId := some 1, commandName := "next" } =
      ([Reply.processingPlaceholder,
        Reply.errorReply (UserViewableError.queueErr QueueErrorKind.noOneInQueue)], none) := by
  refine ⟨rfl, rfl, rfl⟩

/-- C2: the claim states that an extension entry whose key equals a base
table key must not silently replace the base entry and that the collision
must be detectable at composition time. The code disagrees: the merge is
object spread over `Object.assign`, so the composed command table silently
maps the colliding key to the extension handler (token 99) where the base
table mapped it to token 1, and `combineMethodMaps` has no error channel
through which a collision could be reported. -/
theorem c2_collision_silently_overwritten :
    collGet demoBaseCommandMap.methodMap "enqueue" = some 1 ∧
    collGet (combineMethodMaps demoBaseCommandMap demoBaseButtonMap demoBaseSelectMap
      demoBaseModalMap [demoCollidingExtension]).1.methodMap "enqueue" = some 99 := by
  refine ⟨rfl, rfl⟩

/-- C9: composing the handler maps with zero attached extensions returns
the four built-in tables exactly unchanged. -/
theorem c9_combine_empty_is_identity {α : Type} (baseCommand : CommandHandlerProps α)
    (baseButton : ButtonHandlerProps α) (baseSelect : SelectMenuHandlerProps α)
    (baseModal : ModalSubmitHandlerProps α) :
    combineMethodMaps baseCommand baseButton baseSelect baseModal [] =
      (baseCommand, baseButton, baseSelect, baseModal) := rfl

/-- C3 counterexample: the claim states that no state reachable by queue
operations from a fresh queue has a principal who is simultaneously a
Helper and a Requester, and that openSession preserves this just as
enqueue does. It is false: `openQueue` checks only the helper collection
and never the waiting line, so after alice opens the queue, bob enqueues,
and bob then opens a session, bob is simultaneously a Helper and a
Requester on the same queue. -/
theorem c3_overlap_reachable_counterexample :
    helperRequesterOverlap (runOps (createQueue none [])
      [QueueOp.openSession aliceM 0, QueueOp.enqueueStudent bobM 1,
       QueueOp.openSession bobM 2]) = true := by decide

/-- C3 (amended): every queue operation except an open-session call by a
principal currently in the waiting line preserves the no-overlap
invariant; hence every state reached from a fresh queue by a sequence in
which no currently-waiting principal opens a session has no principal who
is simultaneously a Helper and a Requester. (enqueue does guard against
helpers; openSession performs no symmetric check against the line.) -/
theorem c3_no_overlap_for_guarded_sequences (backupData : Option (List StudentBackup))
    (members : List GuildMember) (ops : List QueueOp)
    (hsafe : safeOps (createQueue backupData members) ops = true) :
    helperRequesterOverlap (runOps (createQueue backupData members) ops) = false := by
  apply noOverlap_runOps _ _ _ hsafe
  simp [helperRequesterOverlap, createQueue]

/-- C3 witness: a concrete guarded open/enqueue/dequeue/close session run
stays overlap-free. -/
theorem c3_no_overlap_witness :
    helperRequesterOverlap (runOps (createQueue none [])
      [QueueOp.openSession aliceM 0, QueueOp.enqueueStudent bobM 1,
       QueueOp.dequeueNext aliceM, QueueOp.closeSession aliceM 3]) = false :=
  c3_no_overlap_for_guarded_sequences none []
    [QueueOp.openSession aliceM 0, QueueOp.enqueueStudent bobM 1,
     QueueOp.dequeueNext aliceM, QueueOp.closeSession aliceM 3] (by decide)

/-- C8: constructing a queue from a backup list yields a waiting line that
(i) projects back to an order-preserving subsequence of the backup list,
and (ii) contains exactly the backup entries whose principal resolves in
the current membership (each restored entry keeps its backed-up waitStart
and upNext and carries the resolved member); unresolvable entries are
dropped without error — the construction total-functionally returns a
queue. -/
theorem c8_backup_restore_subsequence (backupData : List StudentBackup)
    (members : List GuildMember) :
    List.Sublist (((createQueue (some backupData) members).students).map toBackupEntry)
      backupData ∧
    (∀ hp : Helpee, hp ∈ (createQueue (some backupData) members).students ↔
      ∃ sb ∈ backupData, resolveMember members sb.memberId = some hp.member ∧
        hp.waitStart = sb.waitStart ∧ hp.upNext = sb.upNext) := by
  constructor
  · simpa [createQueue] using restoreStudents_sublist backupData members
  · intro hp
    simpa [createQueue] using restoreStudents_mem_iff backupData members hp

/-- C4: in every queue state reachable from a fresh queue by queue
operations (the observation points outside an in-flight transition),
`isOpen` equals `helpers.size > 0`; moreover at any such state a
successful open adds exactly one helper and sets `isOpen` true, and a
successful close leaves `isOpen` false exactly when the closed helper was
the last one (so closing a non-last helper of a multi-helper queue leaves
it true). -/
theorem c4_isOpen_iff_helpers_present (backupData : Option (List StudentBackup))
    (members : List GuildMember) (ops : List QueueOp) :
    ∀ q : HelpQueueV2, q = runOps (createQueue backupData members) ops →
      (q.isOpen = decide (0 < q.helpers.length)) ∧
      (∀ hm now, collHas q.helpers hm.id = false →
        ∃ q2, q.openQueue hm now = Except.ok q2 ∧
          q2.isOpen = true ∧ q2.helpers.length = q.helpers.length + 1) ∧
      (∀ hm now, q.isOpen = true → (collGet q.helpers hm.id).isSome = true →
        ∃ q2 rec, q.closeQueue hm now = Except.ok (q2, rec) ∧
          (q2.isOpen = false ↔ q.helpers.length = 1)) := by
  intro q hq
  refine ⟨?_, ?_, ?_⟩
  · subst hq
    exact openMatchesHelpers_runOps _ ops (openMatchesHelpers_createQueue backupData members)
  · intro hm now hno
    refine ⟨{ q with
        isOpen := true
        helpers := collSet q.helpers hm.id
          { helpStart := now, helpEnd := none, helpedMembers := [], member := hm } },
      ?_, rfl, ?_⟩
    · simp [HelpQueueV2.openQueue, hno]
    · simp [collSet_of_not_has q.helpers hm.id _ hno]
  · intro hm now hio hget
    obtain ⟨helper, hg⟩ := Option.isSome_iff_exists.mp hget
    have hlen := collDelete_length hg
    refine ⟨{ q with
        helpers := collDelete q.helpers hm.id
        isOpen := decide (0 < (collDelete q.helpers hm.id).length) },
      { helper with helpEnd := some now }, ?_, ?_⟩
    · simp [HelpQueueV2.closeQueue, hio, hg]
    · simp only [decide_eq_false_iff_not, Nat.not_lt, Nat.le_zero]
      omega

/-- C4 witness: after alice and bob both open the two-helper queue, closing
bob succeeds and leaves the queue open (bob was not the last helper). -/
theorem c4_isOpen_witness :
    ∃ q2 rec,
      (runOps (createQueue none [])
        [QueueOp.openSession aliceM 0, QueueOp.openSession bobM 1]).closeQueue bobM 7 =
        Except.ok (q2, rec) ∧
      (q2.isOpen = false ↔
        (runOps (createQueue none [])
          [QueueOp.openSession aliceM 0, QueueOp.openSession bobM 1]).helpers.length = 1) :=
  (c4_isOpen_iff_helpers_present none []
      [QueueOp.openSession aliceM 0, QueueOp.openSession bobM 1] _ rfl).2.2
    bobM 7 (by decide) (by decide)

/-- C5: `enqueue` fails with the queue-closed error when the queue is not
open, with the already-queued error when the principal is already in the
waiting line, and with the is-helper error when the principal holds a
Helper record on this queue (guards checked in that order); each failing
attempt leaves the state unchanged. Otherwise it appends exactly one
requester at the tail, with `waitStart = now` and `upNext` true exactly
when the line was empty before insertion. -/
theorem c5_enqueue_guards_and_append (q : HelpQueueV2) (m : GuildMember) (now : Nat) :
    (q.isOpen = false →
      q.enqueue m now = Except.error QueueErrorKind.queueIsNotOpen ∧
      stepOp q (QueueOp.enqueueStudent m now) = q) ∧
    (q.isOpen = true →
      (q.students.find? (fun s => s.member.id == m.id)).isSome = true →
      q.enqueue m now = Except.error QueueErrorKind.youAreAlreadyInTheQueue ∧
      stepOp q (QueueOp.enqueueStudent m now) = q) ∧
    (q.isOpen = true →
      (q.students.find? (fun s => s.member.id == m.id)).isSome = false →
      collHas q.helpers m.id = true →
      q.enqueue m now = Except.error QueueErrorKind.cannotEnqueueWhileHelping ∧
      stepOp q (QueueOp.enqueueStudent m now) = q) ∧
    (q.isOpen = true →
      (q.students.find? (fun s => s.member.id == m.id)).isSome = false →
      collHas q.helpers m.id = false →
      q.enqueue m now = Except.ok { q with
        students := q.students ++
          [{ waitStart := now, upNext := q.students.length == 0, member := m }] }) := by
  refine ⟨?_, ?_, ?_, ?_⟩
  · intro hio
    have he : q.enqueue m now = Except.error QueueErrorKind.queueIsNotOpen := by
      simp [HelpQueueV2.enqueue, hio]
    exact ⟨he, by simp [stepOp, he]⟩
  · intro hio hf
    have he : q.enqueue m now = Except.error QueueErrorKind.youAreAlreadyInTheQueue := by
      simp [HelpQueueV2.enqueue, hio, hf]
    exact ⟨he, by simp [stepOp, he]⟩
  · intro hio hf hh
    have he : q.enqueue m now = Except.error QueueErrorKind.cannotEnqueueWhileHelping := by
      simp [HelpQueueV2.enqueue, hio, hf, hh]
    exact ⟨he, by simp [stepOp, he]⟩
  · intro hio hf hh
    simp [HelpQueueV2.enqueue, hio, hf, hh]

/-- C5 witness: the four guard cases at concrete states — closed queue,
duplicate enqueue, helper self-enqueue, and a successful append with
`upNext = false` on the nonempty line. -/
theorem c5_enqueue_witness :
    (demoClosedQ.enqueue bobM 5 = Except.error QueueErrorKind.queueIsNotOpen ∧
      stepOp demoClosedQ (QueueOp.enqueueStudent bobM 5) = demoClosedQ) ∧
    (demoOpenQB.enqueue bobM 6 = Except.error QueueErrorKind.youAreAlreadyInTheQueue ∧
      stepOp demoOpenQB (QueueOp.enqueueStudent bobM 6) = demoOpenQB) ∧
    (demoOpenQB.enqueue aliceM 6 = Except.error QueueErrorKind.cannotEnqueueWhileHelping ∧
      stepOp demoOpenQB (QueueOp.enqueueStudent aliceM 6) = demoOpenQB) ∧
    demoOpenQB.enqueue caraM 6 = Except.ok { demoOpenQB with
      students := demoOpenQB.students ++
        [{ waitStart := 6, upNext := demoOpenQB.students.length == 0, member := caraM }] } :=
  ⟨(c5_enqueue_guards_and_append demoClosedQ bobM 5).1 (by decide),
   (c5_enqueue_guards_and_append demoOpenQB bobM 6).2.1 (by decide) (by decide),
   (c5_enqueue_guards_and_append demoOpenQB aliceM 6).2.2.1 (by decide) (by decide) (by decide),
   (c5_enqueue_guards_and_append demoOpenQB caraM 6).2.2.2 (by decide) (by decide) (by decide)⟩

/-- C6: on an open queue whose caller holds a Helper record,
`dequeueWithHelper` on an empty line fails with the empty-queue error and
changes no state; on a nonempty line it removes and returns exactly the
head (the earliest still-waiting principal), shrinks the line by exactly
one, and appends the removed principal's member to that helper's
`helpedMembers`. -/
theorem c6_dequeue_head_fifo (q : HelpQueueV2) (hm : GuildMember)
    (hopen : q.isOpen = true) (hhas : collHas q.helpers hm.id = true) :
    (q.students = [] →
      q.dequeueWithHelper hm = Except.error QueueErrorKind.noOneInQueue ∧
      stepOp q (QueueOp.dequeueNext hm) = q) ∧
    (∀ f rest, q.students = f :: rest →
      ∃ helper, collGet q.helpers hm.id = some helper ∧
        q.dequeueWithHelper hm = Except.ok
          ({ q with
              students := rest
              helpers := collSet q.helpers hm.id
                { helper with helpedMembers := helper.helpedMembers ++ [f.member] } }, f) ∧
        rest.length + 1 = q.students.length) := by
  constructor
  · intro hs
    have he : q.dequeueWithHelper hm = Except.error QueueErrorKind.noOneInQueue := by
      simp [HelpQueueV2.dequeueWithHelper, hopen, hs]
    exact ⟨he, by simp [stepOp, he]⟩
  · intro f rest hs
    obtain ⟨helper, hg⟩ := Option.isSome_iff_exists.mp (collGet_isSome_of_has hhas)
    refine ⟨helper, hg, ?_, by rw [hs]; rfl⟩
    simp [HelpQueueV2.dequeueWithHelper, hopen, hs, hg]

/-- C6 witness: with alice helping and bob first in line, dequeue on the
empty line rejects without effect, and on the one-element line returns bob
and records him in alice's helpedMembers. -/
theorem c6_dequeue_witness :
    (demoOpenQ.dequeueWithHelper aliceM = Except.error QueueErrorKind.noOneInQueue ∧
      stepOp demoOpenQ (QueueOp.dequeueNext aliceM) = demoOpenQ) ∧
    ∃ helper, collGet demoOpenQB.helpers aliceM.id = some helper ∧
      demoOpenQB.dequeueWithHelper aliceM = Except.ok
        ({ demoOpenQB with
            students := []
            helpers := collSet demoOpenQB.helpers aliceM.id
              { helper with
                helpedMembers := helper.helpedMembers ++
                  [({ waitStart := 5, upNext := true, member := bobM } : Helpee).member] } },
          { waitStart := 5, upNext := true, member := bobM }) ∧
      List.length ([] : List Helpee) + 1 = demoOpenQB.students.length :=
  ⟨(c6_dequeue_head_fifo demoOpenQ aliceM (by decide) (by decide)).1 (by decide),
   (c6_dequeue_head_fifo demoOpenQB aliceM (by decide) (by decide)).2
     { waitStart := 5, upNext := true, member := bobM } [] (by decide)⟩

/-- C10: when the target principal is in the waiting line, `removeStudent`
removes exactly the first entry whose member id matches the target (every
earlier entry does not match), keeps all other requesters in their
relative order (the result is the prefix before the match concatenated
with the suffix after it), and leaves the helper collection, the
notification group, and the open flag untouched; when the target is
absent it fails with the not-in-queue error and changes nothing. -/
theorem c10_removeStudent_first_match_only (q : HelpQueueV2) (t : GuildMember) :
    (findIndexOpt (fun s => s.member.id == t.id) q.students = none →
      q.removeStudent t = Except.error QueueErrorKind.notInTheQueue ∧
      stepOp q (QueueOp.removeRequester t) = q) ∧
    (∀ idx, findIndexOpt (fun s => s.member.id == t.id) q.students = some idx →
      q.removeStudent t = Except.ok
        { q with students := q.students.take idx ++ q.students.drop (idx + 1) } ∧
      (q.students.take idx).all (fun s => !(s.member.id == t.id)) = true ∧
      (∃ s, q.students[idx]? = some s ∧ s.member.id = t.id) ∧
      (∀ q2, q.removeStudent t = Except.ok q2 →
        q2.helpers = q.helpers ∧ q2.notifGroup = q.notifGroup ∧ q2.isOpen = q.isOpen)) := by
  constructor
  · intro hfi
    have he : q.removeStudent t = Except.error QueueErrorKind.notInTheQueue := by
      simp [HelpQueueV2.removeStudent, hfi]
    exact ⟨he, by simp [stepOp, he]⟩
  · intro idx hfi
    have hok : q.removeStudent t = Except.ok
        { q with students := q.students.take idx ++ q.students.drop (idx + 1) } := by
      simp [HelpQueueV2.removeStudent, hfi]
    obtain ⟨hall, s, hgot, hmatch⟩ := findIndexOpt_some_spec _ q.students idx hfi
    refine ⟨hok, hall, ⟨s, hgot, by simpa using hmatch⟩, ?_⟩
    intro q2 h2
    rw [hok] at h2
    have : { q with students := q.students.take idx ++ q.students.drop (idx + 1) } = q2 := by
      exact congrArg id (Except.ok.inj h2)
    rw [← this]
    exact ⟨rfl, rfl, rfl⟩

/-- C10 witness: removing bob (first in line) succeeds and leaves helpers,
notification group and open flag unchanged; removing absent cara rejects
without effect. -/
theorem c10_removeStudent_witness :
    (demoOpenQB.removeStudent caraM = Except.error QueueErrorKind.notInTheQueue ∧
      stepOp demoOpenQB (QueueOp.removeRequester caraM) = demoOpenQB) ∧
    demoOpenQB.removeStudent bobM = Except.ok
      { demoOpenQB with
          students := demoOpenQB.students.take 0 ++ demoOpenQB.students.drop 1 } :=
  ⟨(c10_removeStudent_first_match_only demoOpenQB caraM).1 (by decide),
   ((c10_removeStudent_first_match_only demoOpenQB bobM).2 0 (by decide)).1⟩

/-- C7 counterexample: the claim states that every request entering the
per-request pipeline that terminates early in the Failed state — including
one whose component identifier fails to parse — still produces a
user-visible error reply. It is false: on a parse failure the processor
returns immediately (`if (!parseResult.ok) return;`), so a repliable
button request with an unparsable custom id produces zero replies — a
silent drop. -/
theorem c7_parse_failure_silent_drop_counterexample :
    processButton demoButtonOutcomeMap
      { parse := ParseOutcome.failed, inCachedGuild := true, repliable := true } = [] := rfl

/-- C7 (amended): requests whose component identifier fails to parse are
silently dropped with no reply at all; for every request that parses and
reaches a handler — through the guild method map on the cached-guild
non-dm branch, or through the dm method map on the dm branch — a handler
fault is caught and answered with a user-visible error reply whenever the
interaction is repliable, in the button, select-menu and modal-submit
processors alike. -/
theorem c7_failed_state_replies_except_parse_failures
    (bm : ButtonHandlerProps ComponentOutcome) (sm : SelectMenuHandlerProps ComponentOutcome)
    (mm : ModalSubmitHandlerProps ComponentOutcome) (req : ComponentRequest) :
    (req.parse = ParseOutcome.failed →
      processButton bm req = [] ∧ processSelectMenu sm req = [] ∧
      processModalSubmit mm req = []) ∧
    (∀ t name sid e, req.parse = ParseOutcome.ok t name sid →
      req.inCachedGuild = true → (t == ComponentIdType.dm) = false → req.repliable = true →
      guildMapLookup bm.guildMethodMap t name = some (ComponentOutcome.throws e) →
      Reply.errorReply e ∈ processButton bm req) ∧
    (∀ t name sid e, req.parse = ParseOutcome.ok t name sid →
      req.inCachedGuild = true → (t == ComponentIdType.dm) = false → req.repliable = true →
      guildMapLookup sm.guildMethodMap t name = some (ComponentOutcome.throws e) →
      Reply.errorReply e ∈ processSelectMenu sm req) ∧
    (∀ t name sid e, req.parse = ParseOutcome.ok t name sid →
      req.inCachedGuild = true → (t == ComponentIdType.dm) = false → req.repliable = true →
      guildMapLookup mm.guildMethodMap t name = some (ComponentOutcome.throws e) →
      Reply.errorReply e ∈ processModalSubmit mm req) ∧
    (∀ t name sid e, req.parse = ParseOutcome.ok t name sid →
      (req.inCachedGuild && !(t == ComponentIdType.dm)) = false → req.repliable = true →
      collGet bm.dmMethodMap name = some (ComponentOutcome.throws e) →
      Reply.errorReply e ∈ processButton bm req) ∧
    (∀ t name sid e, req.parse = ParseOutcome.ok t name sid →
      (req.inCachedGuild && !(t == ComponentIdType.dm)) = false → req.repliable = true →
      collGet sm.dmMethodMap name = some (ComponentOutcome.throws e) →
      Reply.errorReply e ∈ processSelectMenu sm req) ∧
    (∀ t name sid e, req.parse = ParseOutcome.ok t name sid →
      (req.inCachedGuild && !(t == ComponentIdType.dm)) = false → req.repliable = true →
      collGet mm.dmMethodMap name = some (ComponentOutcome.throws e) →
      Reply.errorReply e ∈ processModalSubmit mm req) := by
  refine ⟨?_, ?_, ?_, ?_, ?_, ?_, ?_⟩
  · intro hp
    exact ⟨by simp [processButton, hp], by simp [processSelectMenu, hp],
      by simp [processModalSubmit, hp]⟩
  · intro t name sid e hp hg ht hr hl
    simp [processButton, hp, hg, ht, hr, hl, runComponentHandler, replyWithError]
  · intro t name sid e hp hg ht hr hl
    simp [processSelectMenu, hp, hg, ht, hr, hl, runComponentHandler, replyWithError]
  · intro t name sid e hp hg ht hr hl
    simp [processModalSubmit, hp, hg, ht, hr, hl, runComponentHandler, replyWithError]
  · intro t name sid e hp hb hr hl
    simp [processButton, hp, hb, hr, hl, runComponentHandler, replyWithError]
  · intro t name sid e hp hb hr hl
    simp [processSelectMenu, hp, hb, hr, hl, runComponentHandler, replyWithError]
  · intro t name sid e hp hb hr hl
    simp [processModalSubmit, hp, hb, hr, hl, runComponentHandler, replyWithError]

/-- C7 witness: the silent drop on a concrete parse failure in all three
processors, the caught-and-replied fault of the rejecting demo button
handler on a parsed cached-guild request, and the caught-and-replied
fault of the rejecting demo dm button handler on a parsed dm request. -/
theorem c7_failed_state_witness :
    (processButton demoButtonOutcomeMap
        { parse := ParseOutcome.failed, inCachedGuild := false, repliable := true } = [] ∧
      processSelectMenu demoSelectOutcomeMap
        { parse := ParseOutcome.failed, inCachedGuild := false, repliable := true } = [] ∧
      processModalSubmit demoModalOutcomeMap
        { parse := ParseOutcome.failed, inCachedGuild := false, repliable := true } = []) ∧
    Reply.errorReply (UserViewableError.queueErr QueueErrorKind.queueIsNotOpen) ∈
      processButton demoButtonOutcomeMap
        { parse := ParseOutcome.ok ComponentIdType.queue "join" 7
          inCachedGuild := true, repliable := true } ∧
    Reply.errorReply (UserViewableError.queueErr QueueErrorKind.notInNotifGroup) ∈
      processButton demoButtonOutcomeMap
        { parse := ParseOutcome.ok ComponentIdType.dm "dmjoin" 7
          inCachedGuild := false, repliable := true } :=
  ⟨(c7_failed_state_replies_except_parse_failures demoButtonOutcomeMap demoSelectOutcomeMap
      demoModalOutcomeMap
      { parse := ParseOutcome.failed, inCachedGuild := false, repliable := true }).1 rfl,
   (c7_failed_state_replies_except_parse_failures demoButtonOutcomeMap demoSelectOutcomeMap
      demoModalOutcomeMap
      { parse := ParseOutcome.ok ComponentIdType.queue "join" 7
        inCachedGuild := true, repliable := true }).2.1
     ComponentIdType.queue "join" 7 (UserViewableError.queueErr QueueErrorKind.queueIsNotOpen)
     rfl rfl rfl rfl (by decide),
   (c7_failed_state_replies_except_parse_failures demoButtonOutcomeMap demoSelectOutcomeMap
      demoModalOutcomeMap
      { parse := ParseOutcome.ok ComponentIdType.dm "dmjoin" 7
        inCachedGuild := false, repliable := true }).2.2.2.2.1
     ComponentIdType.dm "dmjoin" 7 (UserViewableError.queueErr QueueErrorKind.notInNotifGroup)
     rfl rfl rfl (by decide)⟩
